import Mathlib

/-!
Verification development for the batmon-ha JK BMS serial/BLE protocol layer.

The definitions below are a shallow embedding of the Python sources
`bmslib/serialbattery/jkserialio.py`, `bmslib/models/jikong.py` and
`bmslib/bms.py`. Byte strings are modelled as `List Nat` (each element a
byte value 0..255), machine integers as `Nat`/`Int` with explicit masks,
Python floats as `ℚ` with `Option` marking NaN, and fallible code as
`Option`.
-/

set_option maxRecDepth 100000

namespace Batmon

/-! Definitions: CRC-16/Modbus (crcmod.mkCrcFun 0x18005, reflected, init 0xFFFF, no xor-out). -/

/-- Single bit round of the reflected CRC-16/Modbus: shift right and xor with 0xA001 when the low bit was set. -/
def crcRound (crc : Nat) : Nat :=
  if crc % 2 = 1 then (crc / 2) ^^^ 0xA001 else crc / 2

/-- Byte step of CRC-16/Modbus: xor the byte into the register, then eight bit rounds. -/
def crcByteStep (crc b : Nat) : Nat := crcRound^[8] (crc ^^^ b)

/-- Embedding of `crc16_modbus` (jkserialio.py line 19). -/
def crc16_modbus (data : List Nat) : Nat := data.foldl crcByteStep 0xFFFF

/-- Embedding of `crc16_modbus2` (jkserialio.py lines 15-17): the CRC rendered as two little-endian bytes. -/
def crc16_modbus2 (data : List Nat) : List Nat :=
  [crc16_modbus data &&& 0xFF, (crc16_modbus data >>> 8) &&& 0xFF]

/-! Definitions: switch command construction (jkserialio.py lines 24-26, 64-174). -/

/-- Flag bit for the float-charge switch in the shared 16-bit register (jkserialio.py line 24). -/
def float_charge_flag : Nat := 0x0200

/-- Flag bit for the heating switch (jkserialio.py line 25). -/
def heating_flag : Nat := 0x0001

/-- Flag bit for the display switch (jkserialio.py line 26). -/
def display_flag : Nat := 0x0010

/-- Embedding of `JKSerialIO.get_command_switch`. The parameter `status282` stands for `sampler.setting.status_282`, the last decoded value of the shared 16-bit flag register. -/
def get_command_switch (switch : String) (state : Bool) (status282 : Nat) :
    Option (List Nat) :=
  let cmd_10 := fun (c : Nat) =>
    [0x10, 0x10, c, 0x00, 0x02, 0x04, 0x00, 0x00, 0x00, if state then 0x01 else 0x00]
  let cmd_11 := fun (f : Nat) =>
    let v := if state then status282 ||| f else status282 &&& f
    [0x10, 0x11, 0x14, 0x00, 0x02, 0x02, (v >>> 8) &&& 0xFF, v &&& 0xFF]
  if switch = "charge" then some (cmd_10 0x70)
  else if switch = "discharge" then some (cmd_10 0x74)
  else if switch = "balance" then some (cmd_10 0x78)
  else if switch = "float_charge" then some (cmd_11 float_charge_flag)
  else if switch = "heating" then some (cmd_11 heating_flag)
  else if switch = "display" then some (cmd_11 display_flag)
  else none

/-- Embedding of the queue effect of `JKSerialIOBmsSetSwitch.set_switch` (jkserialio.py lines 1140-1149): the command queue gains the command returned by `get_command_switch` when that value is truthy (not None and not empty), and is unchanged otherwise. -/
def set_switch (q : List (List Nat × Nat)) (address : Nat) (switch : String)
    (state : Bool) (status282 : Nat) : List (List Nat × Nat) :=
  match get_command_switch switch state status282 with
  | some cmd => if cmd.isEmpty then q else q ++ [(cmd, address)]
  | none => q

/-! Definitions: Modbus command wrapping and the 11-byte echo check (jkserialio.py lines 176-193, 609-627). -/

/-- Embedding of `JKSerialIO.generate_cmd`: prefix the bus address, append the CRC over address plus command. -/
def generate_cmd (command : List Nat) (address : Nat) : List Nat :=
  let modbus_msg := address :: command
  modbus_msg ++ crc16_modbus2 modbus_msg

/-- CRC comparison performed by `JKSerialIO.cmd_line_11` on an 11-byte command line: CRC-16/Modbus over all bytes but the last two, compared with those two bytes. -/
def cmd_line_11_crcGood (cmd_line : List Nat) : Bool :=
  let crc := crc16_modbus2 cmd_line.dropLast.dropLast
  decide (cmd_line.getD 9 0 = crc.getD 0 0 ∧ cmd_line.getD 10 0 = crc.getD 1 0)

/-- Embedding of `JKSerialIO.cmd_line_11`: the pass/fail flag handed to the callback, produced only when the accumulated command line has exactly 11 bytes. -/
def cmd_line_11 (cmd_line : List Nat) : Option Bool :=
  if cmd_line.length = 11 then some (cmd_line_11_crcGood cmd_line) else none

/-! Definitions: long-frame validation of `JKSerialIO.read_trame_55_aa` (jkserialio.py lines 319-348). -/

/-- Embedding of the checksum validation and delivery performed by `read_trame_55_aa` on a fully assembled frame buffer: trame1 is the first 300 bytes, closed by a sum checksum in its last byte; trame2 is the remainder, closed by a trailing little-endian CRC-16/Modbus. The frame is handed to the callback (result `some data`) only when both checks pass; otherwise the function logs and reports failure without invoking the callback (result `none`). -/
def read_trame_validate (data : List Nat) : Option (List Nat) :=
  if (data.take 300).dropLast.sum % 256 ≠
      (data.take 300).getD ((data.take 300).length - 1) 0 % 256 then none
  else if crc16_modbus2 (data.drop 300).dropLast.dropLast ≠
      (data.drop 300).drop ((data.drop 300).length - 2) then none
  else some data

/-- Concrete 308-byte frame used to witness the long-frame validation theorem. -/
def trameWitnessData : List Nat :=
  List.replicate 306 0 ++ crc16_modbus2 (List.replicate 6 0)

/-! Definitions: temperature decoding of `s_decode_sample` (jkserialio.py lines 682-739). -/

/-- Little-endian signed 16-bit read at byte offset i, the `i16` helper of `s_decode_sample`. -/
def i16 (buf : List Nat) (i : Nat) : Int :=
  let u := buf.getD i 0 % 256 + 256 * (buf.getD (i + 1) 0 % 256)
  if u < 32768 then (u : Int) else (u : Int) - 65536

/-- Temperature sentinel of `s_decode_sample` (line 698): the raw value -2000 marks an absent sensor and decodes to NaN (modelled as none); every other raw value decodes to tenths of a degree. -/
def tempVal (x : Int) : Option ℚ := if x = -2000 then none else some ((x : ℚ) / 10)

/-- Byte offsets of the temperature sensor fields read by `s_decode_sample` under the given layout flag; the new 11.x firmware layout adds 32 to every offset and reads three extra sensors (lines 682-716). -/
def tempOffsets (is_new : Bool) : List Nat :=
  let offset := if is_new then 32 else 0
  [130 + offset, 132 + offset] ++
    (if is_new then [222 + offset, 224 + offset, 226 + offset] else [])

/-- Byte offset of the MOSFET temperature field read by `s_decode_sample` (line 725). -/
def mosOffset (is_new : Bool) : Nat :=
  (if is_new then 112 else 134) + (if is_new then 32 else 0)

/-- Temperatures list built by `s_decode_sample` (lines 714-716). -/
def s_decode_temperatures (is_new : Bool) (buf : List Nat) : List (Option ℚ) :=
  let offset := if is_new then 32 else 0
  [tempVal (i16 buf (130 + offset)), tempVal (i16 buf (132 + offset))] ++
    (if is_new then
      [tempVal (i16 buf (222 + offset)), tempVal (i16 buf (224 + offset)),
        tempVal (i16 buf (226 + offset))]
    else [])

/-- MOSFET temperature of `s_decode_sample` (line 725): the raw signed value divided by 10, with no NaN sentinel applied. -/
def s_decode_mos_temperature (is_new : Bool) (buf : List Nat) : ℚ :=
  let offset := if is_new then 32 else 0
  (i16 buf ((if is_new then 112 else 134) + offset) : ℚ) / 10

/-- Accumulator of the temperature statistics loop in `s_decode_sample` (lines 727-739). -/
structure TempStats where
  somme : ℚ
  count : ℕ
  tmin : ℚ
  tmax : ℚ

/-- One iteration of the statistics loop: NaN entries are skipped, the rest update min, max, sum and count. -/
def tempFoldStep (s : TempStats) (t : Option ℚ) : TempStats :=
  match t with
  | none => s
  | some x =>
    ⟨s.somme + x, s.count + 1, if x < s.tmin then x else s.tmin,
      if s.tmax < x then x else s.tmax⟩

/-- Temperature statistics computed by `s_decode_sample`: initialised from the MOSFET temperature with count 1, then folded over the temperatures list. -/
def s_decode_temp_stats (is_new : Bool) (buf : List Nat) : TempStats :=
  let mos := s_decode_mos_temperature is_new buf
  (s_decode_temperatures is_new buf).foldl tempFoldStep ⟨mos, 1, mos, mos⟩

/-- Mean temperature of `s_decode_sample` (line 739). -/
def s_decode_temp_moyenne (is_new : Bool) (buf : List Nat) : ℚ :=
  (s_decode_temp_stats is_new buf).somme / ((s_decode_temp_stats is_new buf).count : ℚ)

/-! Definitions: BLE notification handling of `JKBt` (jikong.py lines 29-30, 43, 70-104). -/

/-- Embedding of `calc_crc` (jikong.py lines 29-30): sum of all bytes modulo 256. -/
def calc_crc (message_bytes : List Nat) : Nat := message_bytes.sum % 256

/-- Header tag of a BLE response frame (jikong.py line 78). -/
def HEADER : List Nat := [0x55, 0xAA, 0xEB, 0x90]

/-- Minimum BLE response size (jikong.py line 43). -/
def MIN_RESPONSE_SIZE : Nat := 300

/-- Embedding of `JKBt._buffer_crc_check` (jikong.py lines 70-75): compare the sum checksum of the first 299 bytes against byte 299. Reading byte 299 of a buffer shorter than 300 bytes raises IndexError in Python, modelled as none. -/
def buffer_crc_check (buffer : List Nat) : Option Bool :=
  match buffer.get? (MIN_RESPONSE_SIZE - 1) with
  | none => none
  | some b => some (decide (calc_crc (buffer.take (MIN_RESPONSE_SIZE - 1)) = b))

/-- Position of the first occurrence of the 4-byte header tag, as computed by Python `bytes.index`; none when the tag does not occur. -/
def findHeader : List Nat → Option Nat
  | [] => none
  | b :: rest =>
    if (b :: rest).take 4 = HEADER then some 0
    else (findHeader rest).map (fun i => i + 1)

/-- Buffer contents after the append step of `JKBt._notification_handler` (jikong.py lines 80-84): a chunk that starts with the header tag discards the accumulated buffer first. -/
def accBuf (buffer data : List Nat) : List Nat :=
  (if data.take 4 = HEADER then [] else buffer) ++ data

/-- Embedding of `JKBt._notification_handler` (jikong.py lines 77-104) as a step on the accumulated buffer: the result carries the new buffer and the frame passed to `_decode_msg` (if any); none models an uncaught exception, namely the IndexError raised when the crc check is re-run on a resynchronised buffer shorter than 300 bytes. -/
def notification_handler (buffer data : List Nat) :
    Option (List Nat × Option (List Nat)) :=
  let buf := accBuf buffer data
  if MIN_RESPONSE_SIZE ≤ buf.length then
    match buffer_crc_check buf with
    | none => none
    | some crcOk1 =>
      match
        (if crcOk1 then some (buf, true)
         else
           match findHeader buf with
           | some idx =>
             (buffer_crc_check (buf.drop idx)).map (fun ok => (buf.drop idx, ok))
           | none => some (buf, false)) with
      | none => none
      | some (buf2, crcOk) => if crcOk then some ([], some buf2) else some ([], none)
  else some (buf, none)

/-- Concrete 300-byte chunk whose checksum fails and whose only header occurrence is 280 bytes in, leaving fewer than 300 bytes after resynchronisation. -/
def badChunk : List Nat :=
  List.replicate 280 0 ++ HEADER ++ List.replicate 15 0 ++ [7]

/-- Concrete 300-byte chunk whose checksum fails and which contains no header occurrence. -/
def badChunkNoHeader : List Nat := List.replicate 299 0 ++ [5]

/-! Definitions: master-mode polling loop (jkserialio.py lines 396-555). -/

/-- Error-counter update over one polling cycle of `read_serialport_data_mode_master_all_slave`: the cycle threads the counter through its frame exchanges — `send_cmd_one_slave` resets it to 0 whenever `read_trame_55_aa` succeeds and leaves it unchanged otherwise — then the cycle ends with counter += 1 (lines 437-440). -/
def masterCycleCounter (counter : Nat) (outcomes : List Bool) : Nat :=
  (outcomes.foldl (fun acc ok => if ok then 0 else acc) counter) + 1

/-- Embedding of the abort discipline of the master polling loop (lines 442-445): run the per-cycle exchange outcomes in order; after each cycle, if the counter exceeds 800 the loop invokes the callback one last time and returns (none); otherwise it keeps polling (some final counter). -/
def runMaster (counter : Nat) : List (List Bool) → Option Nat
  | [] => some counter
  | o :: rest =>
    if 800 < masterCycleCounter counter o then none
    else runMaster (masterCycleCounter counter o) rest

/-- Command classes sent by the master polling loop. -/
inductive BusCmd where
  | status : BusCmd
  | settings : BusCmd
  | about : BusCmd
  | queued : List Nat → BusCmd
deriving DecidableEq

/-- Bus addresses 1..count_bat polled by `send_cmd_and_read_all_slave` (line 515: range(1, count_bat + 1)). -/
def slaveAddresses (count_bat : Nat) : List Nat :=
  (List.range count_bat).map (fun i => i + 1)

/-- Commands sent by one `send_cmd_and_read_all_slave` pass: the same command to every slave address in order. -/
def sendAllSlave (cmd : BusCmd) (count_bat : Nat) : List (BusCmd × Nat) :=
  (slaveAddresses count_bat).map (fun a => (cmd, a))

/-- Commands sent by `send_command_from_queue` (lines 484-494): every queued switch command, each immediately followed by a settings command to the same address. -/
def queueSends : List (List Nat × Nat) → List (BusCmd × Nat)
  | [] => []
  | (cmd, a) :: rest =>
    (BusCmd.queued cmd, a) :: (BusCmd.settings, a) :: queueSends rest

/-- Commands sent during one iteration of `read_serialport_data_mode_master_all_slave` (lines 426-440), as a function of the period counter, the slave count and the drained queue contents: device info on counters divisible by 720, settings on counters divisible by 6, status every cycle, then the queued commands. -/
def cycleSchedule (pc count_bat : Nat) (queue : List (List Nat × Nat)) :
    List (BusCmd × Nat) :=
  (if pc % 720 = 0 then sendAllSlave BusCmd.about count_bat else []) ++
    (if pc % 6 = 0 then sendAllSlave BusCmd.settings count_bat else []) ++
    sendAllSlave BusCmd.status count_bat ++ queueSends queue

/-! Definitions: state-of-charge inference of `BmsSample.__init__` (bms.py lines 282-292). -/

/-- Python numeric value of the soc argument: NaN, an int, or a float (modelled exactly as a rational). -/
inductive PyNum where
  | nan : PyNum
  | intVal : Int → PyNum
  | floatVal : ℚ → PyNum
deriving DecidableEq

/-- Truthiness of the Python comparison x > 0 on a possibly-NaN float: NaN compares false. -/
def gtZero (x : Option ℚ) : Bool :=
  match x with
  | none => false
  | some q => decide (0 < q)

/-- Rounding of a rational to the nearest integer with ties to even, as Python round(). -/
def roundHalfEven (q : ℚ) : Int :=
  if q - ⌊q⌋ < 1 / 2 then ⌊q⌋
  else if 1 / 2 < q - ⌊q⌋ then ⌊q⌋ + 1
  else if ⌊q⌋ % 2 = 0 then ⌊q⌋ else ⌊q⌋ + 1

/-- Python round(x, 2): round to two decimal places; NaN propagates. -/
def round2 (x : Option ℚ) : Option ℚ :=
  x.map (fun q => (roundHalfEven (q * 100) : ℚ) / 100)

/-- Embedding of the soc-inference branch of `BmsSample.__init__` (bms.py line 285): when capacity > 0 and soc is NaN, or soc is an int with charge > 0, soc is replaced by round(charge / capacity * 100, 2). The charge and capacity arguments are possibly-NaN floats; the elif branch of the source only modifies capacity and leaves soc unchanged. -/
def bms_sample_soc (charge capacity : Option ℚ) (soc : PyNum) : PyNum :=
  if gtZero capacity &&
      (match soc with
       | .nan => true
       | .intVal _ => gtZero charge
       | .floatVal _ => false) then
    match round2
        (match charge, capacity with
         | some ch, some ca => some (ch / ca * 100)
         | _, _ => none) with
    | some q => .floatVal q
    | none => .nan
  else soc

end Batmon

namespace Batmon

/-! Theorems for the switch-command claims. -/

/-- Claim C1. The code at jkserialio.py line 155 computes `status_282 & flag` when disabling, not `status_282 & ~flag`: at the register value 0x3251 shown in the function's own docstring, switching float_charge off produces payload bytes 02 00, while the documented frame (line 78 and the log at line 116) carries 30 51 = 0x3251 & ~0x0200. This theorem evaluates the embedded code at that failing input. -/
theorem get_command_switch_float_charge_off_eval :
    get_command_switch "float_charge" false 0x3251 =
      some [0x10, 0x11, 0x14, 0x00, 0x02, 0x02, 0x02, 0x00]
    ∧ 0x3251 &&& (0xFFFF ^^^ float_charge_flag) = 0x3051
    ∧ ([(0x02 : Nat), 0x00] ≠ [0x30, 0x51]) := by
  refine ⟨by decide, by decide, by decide⟩

/-- Claim C10, part proved here: for any switch name outside the fixed set, `get_command_switch` returns none and `set_switch` leaves the command queue unchanged. -/
theorem set_switch_unknown_queue_unchanged (switch : String) (state : Bool)
    (status282 : Nat) (q : List (List Nat × Nat)) (address : Nat)
    (h : switch ∉ ["charge", "discharge", "balance", "float_charge", "heating", "display"]) :
    get_command_switch switch state status282 = none ∧
      set_switch q address switch state status282 = q := by
  simp only [List.mem_cons, List.mem_singleton, not_or] at h
  obtain ⟨h1, h2, h3, h4, h5, h6, -⟩ := h
  have hg : get_command_switch switch state status282 = none := by
    unfold get_command_switch
    simp [h1, h2, h3, h4, h5, h6]
  refine ⟨hg, ?_⟩
  unfold set_switch
  rw [hg]

/-- Witness for the unknown-switch claim at the concrete name "foo". -/
theorem set_switch_unknown_queue_unchanged_witness :
    "foo" ∉ ["charge", "discharge", "balance", "float_charge", "heating", "display"] ∧
      (get_command_switch "foo" true 0 = none ∧
        set_switch [([0x10], 2)] 1 "foo" true 0 = [([0x10], 2)]) :=
  ⟨by decide, set_switch_unknown_queue_unchanged "foo" true 0 [([0x10], 2)] 1 (by decide)⟩

/-- Claim C6: `generate_cmd` produces address, command, then the little-endian CRC-16/Modbus of address plus command; for an 8-byte command the 11-byte result always passes the `cmd_line_11` short-frame check. -/
theorem generate_cmd_passes_cmd_line_11 (command : List Nat) (address : Nat)
    (haddr : address < 256) (hlen : command.length = 8) :
    generate_cmd command address =
      address :: (command ++ crc16_modbus2 (address :: command)) ∧
    cmd_line_11 (generate_cmd command address) = some true := by
  have h9 : (address :: command).length = 9 := by simp [hlen]
  set m := address :: command with hm
  set a := crc16_modbus m &&& 0xFF with ha
  set b := (crc16_modbus m >>> 8) &&& 0xFF with hb
  have hgen : generate_cmd command address = m ++ [a, b] := rfl
  have hsplit : m ++ [a, b] = (m ++ [a]) ++ [b] := by simp
  have hdrop : (m ++ [a, b]).dropLast.dropLast = m := by
    rw [hsplit, List.dropLast_concat, List.dropLast_concat]
  have hgetD9 : (m ++ [a, b]).getD 9 0 = a := by
    rw [List.getD_append_right m [a, b] 0 9 h9.le, h9]
    rfl
  have hgetD10 : (m ++ [a, b]).getD 10 0 = b := by
    rw [List.getD_append_right m [a, b] 0 10 (by omega), h9]
    rfl
  constructor
  · simp [generate_cmd]
  · rw [hgen]
    unfold cmd_line_11
    rw [if_pos (by simp [h9])]
    unfold cmd_line_11_crcGood
    rw [hdrop, hgetD9, hgetD10]
    simp [crc16_modbus2, ← ha, ← hb]

/-- Claim C3: on a fully assembled long frame of the fixed length 308, `read_trame_55_aa` delivers the frame to the callback and reports success if and only if byte 299 equals the sum of bytes [0,299) modulo 256 and the last two bytes equal the little-endian CRC-16/Modbus of bytes [300,306); when either check fails nothing is delivered, and a delivered frame is always the entire buffer. -/
theorem read_trame_validate_check (data : List Nat) (h : data.length = 308) :
    ((read_trame_validate data).isSome ↔
      ((data.take 299).sum % 256 = data.getD 299 0 % 256 ∧
        crc16_modbus2 ((data.drop 300).take 6) = data.drop 306)) ∧
    (∀ d, read_trame_validate data = some d → d = data) := by
  have h1 : (data.take 300).length = 300 := by
    rw [List.length_take]; omega
  have h2 : (data.take 300).dropLast = data.take 299 := by
    rw [List.dropLast_eq_take, h1, List.take_take]
    norm_num
  have h3 : (data.take 300).getD 299 0 = data.getD 299 0 := by
    rw [List.getD_eq_getElem (data.take 300) 0 (by omega),
      List.getD_eq_getElem data 0 (by omega)]
    simp
  have h4 : (data.drop 300).length = 8 := by
    rw [List.length_drop]; omega
  have h5 : (data.drop 300).dropLast.dropLast = (data.drop 300).take 6 := by
    have ha : (data.drop 300).dropLast = (data.drop 300).take 7 := by
      rw [List.dropLast_eq_take, h4]
    rw [ha, List.dropLast_eq_take, List.length_take, h4, List.take_take]
    norm_num
  have h6 : (data.drop 300).drop ((data.drop 300).length - 2) = data.drop 306 := by
    rw [h4, List.drop_drop]
  unfold read_trame_validate
  rw [h2, h1, h3, h5, h6]
  constructor
  · by_cases hc1 : (data.take 299).sum % 256 = data.getD 299 0 % 256 <;>
      by_cases hc2 : crc16_modbus2 ((data.drop 300).take 6) = data.drop 306 <;>
      simp [hc1, hc2]
  · intro d hd
    split_ifs at hd
    exact (Option.some_injective _ hd).symm

/-- Witness for the long-frame validation theorem at a concrete valid 308-byte frame. -/
theorem read_trame_validate_check_witness :
    trameWitnessData.length = 308 ∧
      (((read_trame_validate trameWitnessData).isSome ↔
        ((trameWitnessData.take 299).sum % 256 = trameWitnessData.getD 299 0 % 256 ∧
          crc16_modbus2 ((trameWitnessData.drop 300).take 6) = trameWitnessData.drop 306)) ∧
      (∀ d, read_trame_validate trameWitnessData = some d → d = trameWitnessData)) :=
  ⟨by decide, read_trame_validate_check trameWitnessData (by decide)⟩

/-- Witness for the command round trip at the settings command and bus address 1. -/
theorem generate_cmd_passes_cmd_line_11_witness :
    (1 : Nat) < 256 ∧ ([0x10, 0x16, 0x1e, 0x00, 0x01, 0x02, 0x00, 0x00] : List Nat).length = 8 ∧
      (generate_cmd [0x10, 0x16, 0x1e, 0x00, 0x01, 0x02, 0x00, 0x00] 1 =
        1 :: ([0x10, 0x16, 0x1e, 0x00, 0x01, 0x02, 0x00, 0x00] ++
          crc16_modbus2 (1 :: [0x10, 0x16, 0x1e, 0x00, 0x01, 0x02, 0x00, 0x00])) ∧
      cmd_line_11 (generate_cmd [0x10, 0x16, 0x1e, 0x00, 0x01, 0x02, 0x00, 0x00] 1) = some true) :=
  ⟨by decide, by decide,
    generate_cmd_passes_cmd_line_11 [0x10, 0x16, 0x1e, 0x00, 0x01, 0x02, 0x00, 0x00] 1
      (by decide) (by decide)⟩

/-! Theorems for the temperature decoding claims. -/

/-- Helper: the statistics fold computes sum, count, min and max of the non-NaN entries on top of its initial accumulator. -/
theorem tempFold_spec (ts : List (Option ℚ)) (s : TempStats) :
    ts.foldl tempFoldStep s =
      ⟨s.somme + (ts.filterMap id).sum, s.count + (ts.filterMap id).length,
        (ts.filterMap id).foldl min s.tmin, (ts.filterMap id).foldl max s.tmax⟩ := by
  induction ts generalizing s with
  | nil => simp
  | cons t rest ih =>
    cases t with
    | none =>
      rw [List.foldl_cons]
      rw [show tempFoldStep s none = s from rfl, ih]
      simp
    | some x =>
      have hfm : List.filterMap id (some x :: rest) = x :: List.filterMap id rest := by
        simp
      have hmin : (if x < s.tmin then x else s.tmin) = min s.tmin x := by
        rcases lt_or_le x s.tmin with hx | hx
        · simp [hx, min_eq_right hx.le]
        · simp [not_lt.mpr hx, min_eq_left hx]
      have hmax : (if s.tmax < x then x else s.tmax) = max s.tmax x := by
        rcases lt_or_le s.tmax x with hx | hx
        · simp [hx, max_eq_right hx.le]
        · simp [not_lt.mpr hx, max_eq_left hx]
      rw [List.foldl_cons, ih, hfm]
      simp only [tempFoldStep, hmin, hmax, List.sum_cons, List.length_cons,
        List.foldl_cons]
      congr 1
      · ring
      · omega

/-- Helper: a min fold never exceeds its initial value. -/
theorem foldl_min_le_init (l : List ℚ) (a : ℚ) : l.foldl min a ≤ a := by
  induction l generalizing a with
  | nil => simp
  | cons x rest ih => exact le_trans (ih (min a x)) (min_le_left a x)

/-- Helper: a max fold never drops below its initial value. -/
theorem le_foldl_max_init (l : List ℚ) (a : ℚ) : a ≤ l.foldl max a := by
  induction l generalizing a with
  | nil => simp
  | cons x rest ih => exact le_trans (le_max_left a x) (ih (max a x))

/-- Claim C9: the -2000 NaN sentinel is applied only to the elements of the temperatures list; the MOSFET temperature is always the raw signed value divided by 10 (raw -2000 gives -200.0, never NaN), and the MOSFET temperature is always included in the min/mean/max statistics regardless of its value. -/
theorem s_decode_mos_no_sentinel (is_new : Bool) (buf : List Nat) :
    (s_decode_temperatures is_new buf =
      (tempOffsets is_new).map (fun i => tempVal (i16 buf i))) ∧
    tempVal (-2000) = none ∧
    s_decode_mos_temperature is_new buf = (i16 buf (mosOffset is_new) : ℚ) / 10 ∧
    (i16 buf (mosOffset is_new) = -2000 →
      s_decode_mos_temperature is_new buf = -200) ∧
    (s_decode_temp_stats is_new buf).tmin =
      ((s_decode_temperatures is_new buf).filterMap id).foldl min
        (s_decode_mos_temperature is_new buf) ∧
    (s_decode_temp_stats is_new buf).tmax =
      ((s_decode_temperatures is_new buf).filterMap id).foldl max
        (s_decode_mos_temperature is_new buf) ∧
    (s_decode_temp_stats is_new buf).somme =
      s_decode_mos_temperature is_new buf +
        ((s_decode_temperatures is_new buf).filterMap id).sum ∧
    (s_decode_temp_stats is_new buf).count =
      1 + ((s_decode_temperatures is_new buf).filterMap id).length ∧
    (s_decode_temp_stats is_new buf).tmin ≤ s_decode_mos_temperature is_new buf ∧
    s_decode_mos_temperature is_new buf ≤ (s_decode_temp_stats is_new buf).tmax := by
  have hstats := tempFold_spec (s_decode_temperatures is_new buf)
    ⟨s_decode_mos_temperature is_new buf, 1, s_decode_mos_temperature is_new buf,
      s_decode_mos_temperature is_new buf⟩
  have hdef : s_decode_temp_stats is_new buf =
      (s_decode_temperatures is_new buf).foldl tempFoldStep
        ⟨s_decode_mos_temperature is_new buf, 1, s_decode_mos_temperature is_new buf,
          s_decode_mos_temperature is_new buf⟩ := rfl
  rw [hdef, hstats]
  refine ⟨?_, by simp [tempVal], rfl, ?_, rfl, rfl, rfl, rfl, ?_, ?_⟩
  · cases is_new <;> simp [s_decode_temperatures, tempOffsets]
  · intro hraw
    simp [s_decode_mos_temperature, mosOffset] at hraw ⊢
    cases is_new <;> simp_all <;> norm_num
  · exact foldl_min_le_init _ _
  · exact le_foldl_max_init _ _

/-- Claim C2 counterexample: the MOSFET-temperature field is read from offset 144 under the new layout (112 + 32) and offset 134 under the old layout (134 + 0); these differ by 10 bytes, not 32. -/
theorem mosOffset_difference_not_32 :
    mosOffset true = 144 ∧ mosOffset false = 134 ∧
      mosOffset true - mosOffset false ≠ 32 := by decide

/-! Theorems for the BLE notification-handler claim. -/

/-- Claim C4 counterexample: on this chunk the sum8 check fails, the header tag is found at offset 280, the resynchronised buffer keeps only 20 bytes, and re-running the crc check reads byte 299 of it — an IndexError (modelled none): the handler raises instead of recovering. -/
theorem notification_handler_raises :
    notification_handler [] badChunk = none := by decide

/-- Claim C4 amended: when the accumulated buffer reaches the minimum frame size and the sum8 check fails, the handler rescans for the header tag, discards the prefix and retries validation, discarding the entire buffer if validation still fails; it delivers a frame to the decoder only if the retried validation passed, and it raises no exception provided the header occurrence it finds leaves at least the minimum frame size in the buffer. -/
theorem notification_handler_safe (buffer data : List Nat)
    (hlen : MIN_RESPONSE_SIZE ≤ (accBuf buffer data).length)
    (hfail : buffer_crc_check (accBuf buffer data) = some false)
    (hres : ∀ idx, findHeader (accBuf buffer data) = some idx →
      MIN_RESPONSE_SIZE ≤ ((accBuf buffer data).drop idx).length) :
    ∃ d, notification_handler buffer data = some ([], d) ∧
      ∀ f, d = some f → buffer_crc_check f = some true := by
  have h300 : MIN_RESPONSE_SIZE = 300 := rfl
  unfold notification_handler
  rw [if_pos hlen, hfail]
  cases hfind : findHeader (accBuf buffer data) with
  | none =>
    refine ⟨none, by simp, ?_⟩
    intro f hf
    cases hf
  | some idx =>
    have hlen2 := hres idx hfind
    have hlt : MIN_RESPONSE_SIZE - 1 < ((accBuf buffer data).drop idx).length := by
      omega
    have hb : ((accBuf buffer data).drop idx).get? (MIN_RESPONSE_SIZE - 1) =
        some (((accBuf buffer data).drop idx).get ⟨MIN_RESPONSE_SIZE - 1, hlt⟩) :=
      List.get?_eq_get hlt
    have hcheck : ∃ ok, buffer_crc_check ((accBuf buffer data).drop idx) = some ok := by
      unfold buffer_crc_check
      rw [hb]
      exact ⟨_, rfl⟩
    obtain ⟨ok, hcheck⟩ := hcheck
    cases ok with
    | true =>
      refine ⟨some ((accBuf buffer data).drop idx), ?_, ?_⟩
      · simp [hfind, hcheck]
      · intro f hf
        rw [← Option.some_injective _ hf]
        exact hcheck
    | false =>
      refine ⟨none, ?_, ?_⟩
      · simp [hfind, hcheck]
      · intro f hf
        cases hf

/-- Witness for the amended notification-handler claim on a failing chunk with no header occurrence. -/
theorem notification_handler_safe_witness :
    (MIN_RESPONSE_SIZE ≤ (accBuf [] badChunkNoHeader).length ∧
      buffer_crc_check (accBuf [] badChunkNoHeader) = some false) ∧
      (∃ d, notification_handler [] badChunkNoHeader = some ([], d) ∧
        ∀ f, d = some f → buffer_crc_check f = some true) :=
  ⟨⟨by decide, by decide⟩,
    notification_handler_safe [] badChunkNoHeader (by decide) (by decide)
      (by
        intro idx h
        rw [show findHeader (accBuf [] badChunkNoHeader) = none from by decide] at h
        cases h)⟩

/-- Claim C2 amended: the temperature-sensor fields present in both layouts are read from offsets differing by exactly 32 bytes, the MOSFET-temperature field from offsets differing by exactly 10 bytes, and the temperatures list under the new layout has exactly 3 more elements than under the old one. -/
theorem s_decode_layout_offsets (buf : List Nat) :
    tempOffsets true = (tempOffsets false).map (fun i => i + 32) ++ [254, 256, 258] ∧
    mosOffset true = mosOffset false + 10 ∧
    s_decode_temperatures true buf =
      (tempOffsets true).map (fun i => tempVal (i16 buf i)) ∧
    s_decode_temperatures false buf =
      (tempOffsets false).map (fun i => tempVal (i16 buf i)) ∧
    (s_decode_temperatures true buf).length =
      (s_decode_temperatures false buf).length + 3 := by
  refine ⟨by decide, by decide, ?_, ?_, ?_⟩
  · simp [s_decode_temperatures, tempOffsets]
  · simp [s_decode_temperatures, tempOffsets]
  · simp [s_decode_temperatures]

/-! Theorems for the master-mode polling loop claims. -/

/-- Helper: a cycle with no successful exchange leaves the counter folded through unchanged. -/
theorem foldl_counter_all_false (o : List Bool) (c : Nat) (h : o.all (fun b => !b)) :
    o.foldl (fun acc ok => if ok then 0 else acc) c = c := by
  induction o generalizing c with
  | nil => rfl
  | cons x rest ih =>
    simp only [List.all_cons, Bool.and_eq_true, Bool.not_eq_eq_eq_not, Bool.not_true] at h
    obtain ⟨hx, hrest⟩ := h
    subst hx
    simpa using ih c (by simpa using hrest)

/-- Claim C5: the master polling loop maintains one error counter; a cycle with no successful exchange increments it by exactly one, any successful exchange resets it to zero (so the cycle result no longer depends on the previous count), and as soon as the counter exceeds 800 the loop stops polling and signals terminal failure (modelled none) regardless of the remaining cycles. -/
theorem masterCounter_watchdog (c : Nat) (o pre post : List Bool)
    (rest : List (List Bool))
    (hfail : o.all (fun b => !b))
    (habort : 800 < masterCycleCounter c o) :
    masterCycleCounter c o = c + 1 ∧
    masterCycleCounter c (pre ++ true :: post) = masterCycleCounter 0 post ∧
    runMaster c (o :: rest) = none := by
  refine ⟨?_, ?_, ?_⟩
  · unfold masterCycleCounter
    rw [foldl_counter_all_false o c hfail]
  · unfold masterCycleCounter
    rw [List.foldl_append, List.foldl_cons]
    simp
  · unfold runMaster
    rw [if_pos habort]

/-- Witness for the watchdog claim at counter 800 with one failing cycle. -/
theorem masterCounter_watchdog_witness :
    ([false] : List Bool).all (fun b => !b) ∧
      800 < masterCycleCounter 800 [false] ∧
      (masterCycleCounter 800 [false] = 800 + 1 ∧
        masterCycleCounter 800 ([true, false] ++ true :: [false, false]) =
          masterCycleCounter 0 [false, false] ∧
        runMaster 800 ([false] :: [[true]]) = none) :=
  ⟨by decide, by decide,
    masterCounter_watchdog 800 [false] [true, false] [false, false] [[true]]
      (by decide) (by decide)⟩

/-- Helper: filtering a one-command broadcast for its own command class keeps everything. -/
theorem filter_sendAllSlave_same (cmd : BusCmd) (n : Nat) :
    (sendAllSlave cmd n).filter (fun x => decide (x.1 = cmd)) = sendAllSlave cmd n := by
  rw [List.filter_eq_self]
  intro x hx
  simp only [sendAllSlave, List.mem_map] at hx
  obtain ⟨a, -, rfl⟩ := hx
  simp

/-- Helper: filtering a one-command broadcast for a different command class drops everything. -/
theorem filter_sendAllSlave_ne (c1 c2 : BusCmd) (n : Nat) (h : c1 ≠ c2) :
    (sendAllSlave c2 n).filter (fun x => decide (x.1 = c1)) = [] := by
  rw [List.filter_eq_nil_iff]
  intro x hx
  simp only [sendAllSlave, List.mem_map] at hx
  obtain ⟨a, -, rfl⟩ := hx
  simp [h.symm]

/-- Helper: the settings commands among the queue drain are exactly one per queue entry, addressed to that entry. -/
theorem queueSends_filter_settings (queue : List (List Nat × Nat)) :
    (queueSends queue).filter (fun x => decide (x.1 = BusCmd.settings)) =
      queue.map (fun q => (BusCmd.settings, q.2)) := by
  induction queue with
  | nil => rfl
  | cons q rest ih =>
    obtain ⟨cmd, a⟩ := q
    simp [queueSends, ih]

/-- Helper: the queue drain contains no status and no device-info commands. -/
theorem queueSends_filter_other (c : BusCmd) (queue : List (List Nat × Nat))
    (h1 : c ≠ BusCmd.settings) (h2 : ∀ b, c ≠ BusCmd.queued b) :
    (queueSends queue).filter (fun x => decide (x.1 = c)) = [] := by
  induction queue with
  | nil => rfl
  | cons q rest ih =>
    obtain ⟨cmd, a⟩ := q
    have e1 : (BusCmd.queued cmd = c) = False := eq_false (Ne.symm (h2 cmd))
    have e2 : (BusCmd.settings = c) = False := eq_false (Ne.symm h1)
    simp [queueSends, ih, e1, e2]

/-- Helper: inside the queue drain, every queued command is immediately followed by a settings command to the same address. -/
theorem queueSends_adjacent (queue : List (List Nat × Nat)) :
    ∀ i c ad, (queueSends queue).get? i = some (BusCmd.queued c, ad) →
      (queueSends queue).get? (i + 1) = some (BusCmd.settings, ad) := by
  induction queue with
  | nil => intro i c ad h; cases h
  | cons q rest ih =>
    obtain ⟨cmd, a⟩ := q
    intro i c ad h
    match i with
    | 0 =>
      simp only [queueSends, List.get?_cons_zero, Option.some.injEq, Prod.mk.injEq,
        BusCmd.queued.injEq] at h
      obtain ⟨rfl, rfl⟩ := h
      rfl
    | 1 =>
      simp [queueSends] at h
    | (j + 2) =>
      simp only [queueSends, List.get?_cons_succ] at h ⊢
      exact ih j c ad h

/-- Helper: a one-command broadcast of a non-queued command class contains no queued commands. -/
theorem sendAllSlave_no_queued (cmd : BusCmd) (n : Nat)
    (hcmd : ∀ b, cmd ≠ BusCmd.queued b) :
    ∀ x ∈ sendAllSlave cmd n, ∀ c, x.1 ≠ BusCmd.queued c := by
  intro x hx c
  simp only [sendAllSlave, List.mem_map] at hx
  obtain ⟨a, -, rfl⟩ := hx
  exact hcmd c

/-- Helper: an optional broadcast contains no queued commands either way. -/
theorem ite_no_queued (P : Prop) [Decidable P] (l : List (BusCmd × Nat))
    (hl : ∀ x ∈ l, ∀ c, x.1 ≠ BusCmd.queued c) :
    ∀ x ∈ (if P then l else []), ∀ c, x.1 ≠ BusCmd.queued c := by
  intro x hx
  split at hx
  · exact hl x hx
  · exact absurd hx (List.not_mem_nil x)

/-- Helper: concatenation preserves the absence of queued commands. -/
theorem append_no_queued (P1 P2 : List (BusCmd × Nat))
    (h1 : ∀ x ∈ P1, ∀ c, x.1 ≠ BusCmd.queued c)
    (h2 : ∀ x ∈ P2, ∀ c, x.1 ≠ BusCmd.queued c) :
    ∀ x ∈ P1 ++ P2, ∀ c, x.1 ≠ BusCmd.queued c := by
  intro x hx
  rcases List.mem_append.mp hx with hx | hx
  · exact h1 x hx
  · exact h2 x hx

/-- Helper: adjacency is preserved when a list without queued commands comes in front. -/
theorem adjacent_append (P l : List (BusCmd × Nat))
    (hP : ∀ x ∈ P, ∀ c, x.1 ≠ BusCmd.queued c)
    (hl : ∀ i c ad, l.get? i = some (BusCmd.queued c, ad) →
      l.get? (i + 1) = some (BusCmd.settings, ad)) :
    ∀ i c ad, (P ++ l).get? i = some (BusCmd.queued c, ad) →
      (P ++ l).get? (i + 1) = some (BusCmd.settings, ad) := by
  induction P with
  | nil => simpa using hl
  | cons p P' ih =>
    intro i c ad h
    match i with
    | 0 =>
      rw [List.cons_append, List.get?_cons_zero] at h
      have hp : p = (BusCmd.queued c, ad) := Option.some_injective _ h
      exact absurd (congrArg Prod.fst hp) (hP p (List.mem_cons_self p P') c)
    | (j + 1) =>
      rw [List.cons_append, List.get?_cons_succ] at h ⊢
      exact ih (fun x hx => hP x (List.mem_cons_of_mem p hx)) j c ad h

/-- Claim C8: in every master-loop iteration the status command goes to every configured address 1..N; the settings broadcast to all addresses happens exactly on iterations whose period counter is divisible by 6 (plus one settings re-poll per drained queue entry, addressed to that entry); the device-info broadcast exactly on counters divisible by 720; and every queued switch command is immediately followed by a settings command to the same address. -/
theorem cycleSchedule_spec (pc n : Nat) (queue : List (List Nat × Nat)) :
    (cycleSchedule pc n queue).filter (fun x => decide (x.1 = BusCmd.status)) =
      sendAllSlave BusCmd.status n ∧
    (cycleSchedule pc n queue).filter (fun x => decide (x.1 = BusCmd.about)) =
      (if pc % 720 = 0 then sendAllSlave BusCmd.about n else []) ∧
    (cycleSchedule pc n queue).filter (fun x => decide (x.1 = BusCmd.settings)) =
      (if pc % 6 = 0 then sendAllSlave BusCmd.settings n else []) ++
        queue.map (fun q => (BusCmd.settings, q.2)) ∧
    (∀ i c ad, (cycleSchedule pc n queue).get? i = some (BusCmd.queued c, ad) →
      (cycleSchedule pc n queue).get? (i + 1) = some (BusCmd.settings, ad)) := by
  have hstat := filter_sendAllSlave_same BusCmd.status n
  have habt := filter_sendAllSlave_same BusCmd.about n
  have hset := filter_sendAllSlave_same BusCmd.settings n
  refine ⟨?_, ?_, ?_, ?_⟩
  · unfold cycleSchedule
    rw [List.filter_append, List.filter_append, List.filter_append, hstat,
      queueSends_filter_other BusCmd.status queue (by simp) (by simp)]
    by_cases h720 : pc % 720 = 0 <;> by_cases h6 : pc % 6 = 0 <;>
      simp [h720, h6, filter_sendAllSlave_ne BusCmd.status BusCmd.about n (by simp),
        filter_sendAllSlave_ne BusCmd.status BusCmd.settings n (by simp)]
  · unfold cycleSchedule
    rw [List.filter_append, List.filter_append, List.filter_append,
      filter_sendAllSlave_ne BusCmd.about BusCmd.status n (by simp),
      queueSends_filter_other BusCmd.about queue (by simp) (by simp)]
    by_cases h720 : pc % 720 = 0 <;> by_cases h6 : pc % 6 = 0 <;>
      simp [h720, h6, habt,
        filter_sendAllSlave_ne BusCmd.about BusCmd.settings n (by simp)]
  · unfold cycleSchedule
    rw [List.filter_append, List.filter_append, List.filter_append,
      filter_sendAllSlave_ne BusCmd.settings BusCmd.status n (by simp),
      queueSends_filter_settings queue]
    by_cases h720 : pc % 720 = 0 <;> by_cases h6 : pc % 6 = 0 <;>
      simp [h720, h6, hset,
        filter_sendAllSlave_ne BusCmd.settings BusCmd.about n (by simp)]
  · unfold cycleSchedule
    exact adjacent_append _ _
      (append_no_queued _ _
        (append_no_queued _ _
          (ite_no_queued _ _ (sendAllSlave_no_queued BusCmd.about n (by simp)))
          (ite_no_queued _ _ (sendAllSlave_no_queued BusCmd.settings n (by simp))))
        (sendAllSlave_no_queued BusCmd.status n (by simp)))
      (queueSends_adjacent queue)

/-! Theorems for the state-of-charge claim. -/

/-- Claim C7 counterexample: with capacity 1, charge 2 and NaN soc, the derived soc is 200, outside [0, 100] — the inference performs no clamping. -/
theorem bms_sample_soc_above_100 :
    bms_sample_soc (some 2) (some 1) PyNum.nan = PyNum.floatVal 200 ∧
      ¬((200 : ℚ) ≤ 100) := by
  have hq : ((2 : ℚ) / 1 * 100) * 100 = 20000 := by norm_num
  have hfloor : (⌊(20000 : ℚ)⌋ : Int) = 20000 := by norm_num
  have hr : roundHalfEven 20000 = 20000 := by
    unfold roundHalfEven
    rw [hfloor]
    norm_num
  refine ⟨?_, by norm_num⟩
  simp only [bms_sample_soc, gtZero, round2, Option.map_some, hq, hr]
  norm_num [hq, hr]

/-- Helper: rounding half to even keeps a value of [0, m] inside [0, m]. -/
theorem roundHalfEven_bounds (x : ℚ) (m : Int) (h0 : 0 ≤ x) (hm : x ≤ (m : ℚ)) :
    0 ≤ roundHalfEven x ∧ roundHalfEven x ≤ m := by
  have hf0 : 0 ≤ ⌊x⌋ := Int.floor_nonneg.mpr h0
  have hfm : ⌊x⌋ ≤ m := by
    have := Int.floor_le_floor hm
    rwa [Int.floor_intCast] at this
  have hsucc : (1 : ℚ) / 2 ≤ x - ⌊x⌋ → ⌊x⌋ + 1 ≤ m := by
    intro hh
    have hfx : (⌊x⌋ : ℚ) ≤ x := Int.floor_le x
    have hlt : (⌊x⌋ : ℚ) < m := by linarith
    exact_mod_cast Int.add_one_le_iff.mpr (by exact_mod_cast hlt)
  unfold roundHalfEven
  split_ifs with h1 h2 h3
  · exact ⟨hf0, hfm⟩
  · exact ⟨by omega, hsucc (le_of_lt h2)⟩
  · exact ⟨hf0, hfm⟩
  · exact ⟨by omega, hsucc (by linarith [not_lt.mp h1])⟩

/-- Claim C7 amended: for a BmsSample constructed with positive capacity, a charge between 0 and capacity, and a NaN state of charge — or an integer state of charge together with positive charge — the soc derived from charge and capacity satisfies 0 ≤ soc ≤ 100. -/
theorem bms_sample_soc_bounds (ch ca : ℚ) (soc : PyNum)
    (hca : 0 < ca) (hch0 : 0 ≤ ch) (hchca : ch ≤ ca)
    (hsoc : soc = PyNum.nan ∨ ∃ z, soc = PyNum.intVal z ∧ 0 < ch) :
    ∃ q, bms_sample_soc (some ch) (some ca) soc = PyNum.floatVal q ∧
      0 ≤ q ∧ q ≤ 100 := by
  have hx0 : 0 ≤ ch / ca * 100 * 100 := by positivity
  have hx1 : ch / ca * 100 * 100 ≤ ((10000 : Int) : ℚ) := by
    have hdiv : ch / ca ≤ 1 := (div_le_one hca).mpr hchca
    push_cast
    nlinarith
  obtain ⟨hr0, hr1⟩ := roundHalfEven_bounds (ch / ca * 100 * 100) 10000 hx0 hx1
  have hb1 : (0 : ℚ) ≤ (roundHalfEven (ch / ca * 100 * 100) : ℚ) / 100 := by positivity
  have hb2 : (roundHalfEven (ch / ca * 100 * 100) : ℚ) / 100 ≤ 100 := by
    rw [div_le_iff₀ (by norm_num)]
    calc ((roundHalfEven (ch / ca * 100 * 100) : ℚ)) ≤ ((10000 : Int) : ℚ) := by
          exact_mod_cast hr1
      _ = 100 * 100 := by norm_num
  refine ⟨(roundHalfEven (ch / ca * 100 * 100) : ℚ) / 100, ?_, hb1, hb2⟩
  rcases hsoc with rfl | ⟨z, rfl, hpos⟩
  · simp [bms_sample_soc, gtZero, round2, hca]
  · simp [bms_sample_soc, gtZero, round2, hca, hpos]

/-- Witness for the amended soc claim at charge 1, capacity 2 and NaN soc. -/
theorem bms_sample_soc_bounds_witness :
    (0 : ℚ) < 2 ∧ (0 : ℚ) ≤ 1 ∧ (1 : ℚ) ≤ 2 ∧
      ∃ q, bms_sample_soc (some 1) (some 2) PyNum.nan = PyNum.floatVal q ∧
        0 ≤ q ∧ q ≤ 100 :=
  ⟨by norm_num, by norm_num, by norm_num,
    bms_sample_soc_bounds 1 2 PyNum.nan (by norm_num) (by norm_num) (by norm_num)
      (Or.inl rfl)⟩

end Batmon
